import Mathlib

/-!
Verification of the parsers-and-plugins manager (`plaso/parsers/manager.py`,
class `ParsersManager`).

The class-level registry `cls._parser_classes` (a Python dict mapping the
lower-cased parser name to the parser class) is modelled as an association
list `Registry`; the classmethods become functions taking the registry as an
explicit argument.  Python strings are Lean `String`s, and the Python string
operations used by the source (`split(u',')`, `strip()`, `startswith(u'-')`,
`[1:]`, `lower()`) are given structural-recursive models over the character
list so that they evaluate on concrete inputs.

External collaborators (the `presets` module, `plaso.lib.specification`, and
`pysigscan`) are not part of the source file; they are modelled at their
interface, following the spec, where the source calls into them.
-/

/-- The whitespace characters removed by Python `str.strip()`. -/
def pySpaceChar (c : Char) : Bool :=
  c = ' ' || c = '\t' || c = '\n' || c = '\r' || c = '\x0b' || c = '\x0c'

/-- Python `s.strip()`: remove leading and trailing whitespace. -/
def pyStrip (s : String) : String :=
  String.mk (((s.toList.dropWhile pySpaceChar).reverse.dropWhile pySpaceChar).reverse)

/-- Python `s.lower()` (ASCII case folding; the parser names in question are ASCII). -/
def pyLower (s : String) : String :=
  String.mk (s.toList.map Char.toLower)

/-- Python `s.startswith(u'-')`. -/
def pyStartsWithDash (s : String) : Bool :=
  match s.toList with
  | '-' :: _ => true
  | _ => false

/-- Python `s[1:]`. -/
def pyDropHead (s : String) : String :=
  String.mk (s.toList.drop 1)

/-- Auxiliary recursion for Python `s.split(u',')` over the character list. -/
def splitCommaAux : List Char → List String
  | [] => [""]
  | c :: rest =>
    let r := splitCommaAux rest
    if c = ',' then "" :: r
    else
      match r with
      | h :: t => String.mk (c :: h.toList) :: t
      | [] => [String.mk [c]]

/-- Python `s.split(u',')`: split on every comma, keeping empty pieces;
`u''.split(u',')` is `[u'']`. -/
def pySplitComma (s : String) : List String :=
  splitCommaAux s.toList

/-- A byte signature of a format specification (interface of
`plaso.lib.specification.Signature` as used by `GetScanner`): an identifier,
a byte pattern and a nullable signed offset. -/
structure Signature where
  identifier : String
  pattern : List Nat
  offset : Option Int
deriving DecidableEq, Repr

/-- A format specification (interface of
`plaso.lib.specification.FormatSpecification` as used by the manager): an
identifier and its list of signatures. -/
structure FormatSpecification where
  identifier : String
  signatures : List Signature
deriving DecidableEq, Repr

/-- A parser class, at the interface the manager consumes: its `NAME`
attribute, `SupportsPlugins()`, `GetPluginNames()`, `GetFormatSpecification()`
and `GetPluginList()` (the latter modelled as an opaque list of names). -/
structure ParserClass where
  NAME : String
  supportsPlugins : Bool
  pluginNames : List String
  formatSpecification : Option FormatSpecification
  pluginList : List String
deriving DecidableEq, Repr

/-- The registry `cls._parser_classes`: a dict from lower-cased parser name to
parser class, modelled as an association list whose keys are unique in any
state reachable through `RegisterParser`/`DeregisterParser`. -/
abbrev Registry : Type := List (String × ParserClass)

/-- Python `name in cls._parser_classes`. -/
def regContains (reg : Registry) (name : String) : Bool :=
  (List.any reg fun p => p.1 == name)

/-- Python `cls._parser_classes[name]`, as an optional lookup. -/
def regLookup (reg : Registry) (name : String) : Option ParserClass :=
  (List.find? (fun p => p.1 == name) reg).map Prod.snd

/-- The preset catalog `presets.categories`: an external static mapping from
category name to the parser names of that category. -/
abbrev Categories : Type := List (String × List String)

/-- Python `filter_string in presets.categories.keys()`. -/
def catContains (cats : Categories) (name : String) : Bool :=
  (List.any cats fun p => p.1 == name)

/-- Modelled from the spec: `presets.GetParsersFromCategory` lives in
`plaso.frontend.presets`, which is not under `src/`.  Per the spec, the
preset catalog "maps category name → ordered set of parser names" and
resolution of a category token "append[s] every parser name the catalog
lists for that category". -/
def GetParsersFromCategory (cats : Categories) (category : String) : List String :=
  match List.find? (fun p => p.1 == category) cats with
  | some p => p.2
  | none => []

/-- One iteration of the token loop of
`ParsersManager.GetFilterListsFromString` (manager.py:54-78): strip the raw
token, drop it if empty, route it to the exclude list when it starts with
`-` (stripping the marker), lower-case it, and resolve it against the
registry, then the preset categories, then verbatim. -/
def filterListStep (reg : Registry) (cats : Categories)
    (acc : List String × List String) (raw : String) :
    List String × List String :=
  let fs0 := pyStrip raw
  if fs0 = "" then acc
  else
    let isExclude := pyStartsWithDash fs0
    let fs1 := if isExclude then pyDropHead fs0 else fs0
    let fs2 := pyLower fs1
    let additions :=
      match regLookup reg fs2 with
      | some parser_class =>
          if parser_class.supportsPlugins then fs2 :: parser_class.pluginNames
          else [fs2]
      | none =>
          if catContains cats fs2 then GetParsersFromCategory cats fs2
          else [fs2]
    if isExclude then (acc.1, acc.2 ++ additions) else (acc.1 ++ additions, acc.2)

/-- `ParsersManager.GetFilterListsFromString` (manager.py:34-80): split the
filter string on commas and fold the token loop, producing the include and
exclude lists. -/
def GetFilterListsFromString (reg : Registry) (cats : Categories)
    (parser_filter_string : String) : List String × List String :=
  (pySplitComma parser_filter_string).foldl (filterListStep reg cats) ([], [])

/-- Python truthiness of the `includes`/`excludes` variables in `GetParsers`:
`None` and the empty list are falsy. -/
def listTruthy : Option (List String) → Bool
  | none => false
  | some l => !l.isEmpty

/-- `ParsersManager.GetParsers` (manager.py:119-143): when the filter string
is truthy (present and non-empty) resolve it, then yield each registered
(name, class) pair not skipped by the exclude and include checks. -/
def GetParsers (reg : Registry) (cats : Categories)
    (parser_filter_string : Option String) : List (String × ParserClass) :=
  let lists : Option (List String) × Option (List String) :=
    match parser_filter_string with
    | some s =>
        if s = "" then (none, none)
        else
          let ie := GetFilterListsFromString reg cats s
          (some ie.1, some ie.2)
    | none => (none, none)
  List.filter (fun p =>
    if listTruthy lists.2 && (lists.2.getD []).contains p.1 then false
    else if listTruthy lists.1 && !((lists.1.getD []).contains p.1) then false
    else true) reg

/-- `ParsersManager.GetParserNames` (manager.py:82-98). -/
def GetParserNames (reg : Registry) (cats : Categories)
    (parser_filter_string : Option String) : List String :=
  (GetParsers reg cats parser_filter_string).map Prod.fst

/-- `ParsersManager.GetParserObjects` (manager.py:100-117); instantiation
`parser_class()` is modelled by the class itself. -/
def GetParserObjects (reg : Registry) (cats : Categories)
    (parser_filter_string : Option String) : List (String × ParserClass) :=
  (GetParsers reg cats parser_filter_string).foldl
    (fun acc p => acc ++ [(p.1, p.2)]) []

/-- The flags passed to `pysigscan` by `GetScanner`. -/
inductive SignatureFlag where
  | NO_OFFSET
  | RELATIVE_FROM_END
  | RELATIVE_FROM_START
deriving DecidableEq, Repr

/-- One rule handed to `scanner_object.add_signature` by `GetScanner`:
identifier, (nullable) pattern offset, pattern and flags. -/
structure ScannerRule where
  identifier : String
  pattern_offset : Option Int
  pattern : List Nat
  flags : SignatureFlag
deriving DecidableEq, Repr

/-- The rule `GetScanner` emits for one signature (manager.py:159-172):
a null offset gives `NO_OFFSET` with the offset passed through; a negative
offset is multiplied by `-1` and flagged `RELATIVE_FROM_END`; otherwise the
offset is passed as given with `RELATIVE_FROM_START`. -/
def signatureRule (signature : Signature) : ScannerRule :=
  match signature.offset with
  | none =>
      ⟨signature.identifier, none, signature.pattern, SignatureFlag.NO_OFFSET⟩
  | some pattern_offset =>
      if pattern_offset < 0 then
        ⟨signature.identifier, some (pattern_offset * -1), signature.pattern,
          SignatureFlag.RELATIVE_FROM_END⟩
      else
        ⟨signature.identifier, some pattern_offset, signature.pattern,
          SignatureFlag.RELATIVE_FROM_START⟩

/-- `ParsersManager.GetScanner` (manager.py:145-174): the scanner object is
modelled by the list of rules added to it, in emission order (outer loop over
specifications, inner loop over signatures). -/
def GetScanner (specification_store : List FormatSpecification) :
    List ScannerRule :=
  specification_store.foldl
    (fun acc format_specification =>
      format_specification.signatures.foldl
        (fun acc2 signature => acc2 ++ [signatureRule signature]) acc)
    []

/-- One iteration of the loop of `GetSpecificationStore` (manager.py:194-201).
`FormatSpecificationStore.AddSpecification` lives in
`plaso.lib.specification`, which is not under `src/`; modelled from the spec:
the store "aggregates Format Specifications from many parsers into one
collection", so adding is modelled as appending to that collection. -/
def specStoreStep (acc : List FormatSpecification × List String)
    (p : String × ParserClass) : List FormatSpecification × List String :=
  match p.2.formatSpecification with
  | some format_specification => (acc.1 ++ [format_specification], acc.2)
  | none => (acc.1, acc.2 ++ [p.1])

/-- `ParsersManager.GetSpecificationStore` (manager.py:176-203): for each
parser yielded by `GetParsers`, add its format specification to the store
when it is not `None`, else append the parser name to the remainder list. -/
def GetSpecificationStore (reg : Registry) (cats : Categories)
    (parser_filter_string : Option String) :
    List FormatSpecification × List String :=
  (GetParsers reg cats parser_filter_string).foldl specStoreStep ([], [])

/-- `ParsersManager.GetWindowsRegistryPlugins` (manager.py:205-216): look up
the parser registered as `winreg` and return its plugin list, or nothing. -/
def GetWindowsRegistryPlugins (reg : Registry) : Option (List String) :=
  match regLookup reg "winreg" with
  | none => none
  | some parser_class => some parser_class.pluginList

/-- `ParsersManager.RegisterParser` (manager.py:218-235), with the mutation of
`cls._parser_classes` made explicit: raise `KeyError` (left unchanged) when
the lower-cased name is already a key, else insert the class under it. -/
def RegisterParser (parser_class : ParserClass) (reg : Registry) :
    Except String Unit × Registry :=
  let parser_name := pyLower parser_class.NAME
  if regContains reg parser_name then
    (Except.error ("Parser class already set for name: " ++
        parser_class.NAME ++ "."), reg)
  else
    (Except.ok (), reg ++ [(parser_name, parser_class)])

/-- `ParsersManager.DeregisterParser` (manager.py:15-32), with the mutation of
`cls._parser_classes` made explicit: raise `KeyError` (left unchanged) when
the lower-cased name is not a key, else delete the entry. -/
def DeregisterParser (parser_class : ParserClass) (reg : Registry) :
    Except String Unit × Registry :=
  let parser_name := pyLower parser_class.NAME
  if !(regContains reg parser_name) then
    (Except.error ("Parser class not set for name: " ++
        parser_class.NAME ++ "."), reg)
  else
    (Except.ok (), List.filter (fun p => !(p.1 == parser_name)) reg)

/-- `ParsersManager.RegisterParsers` (manager.py:237-250): register each class
in list order; a raised `KeyError` propagates at once, leaving the registry as
it stood when the error was raised. -/
def RegisterParsers : List ParserClass → Registry →
    Except String Unit × Registry
  | [], reg => (Except.ok (), reg)
  | parser_class :: rest, reg =>
    match RegisterParser parser_class reg with
    | (Except.ok _, reg1) => RegisterParsers rest reg1
    | (Except.error e, reg1) => (Except.error e, reg1)

/-- State-passing form of `GetFilterListsFromString`: the classmethod reads
`cls._parser_classes` and performs no assignment to it. -/
def GetFilterListsFromStringSt (cats : Categories) (s : String)
    (reg : Registry) : (List String × List String) × Registry :=
  (GetFilterListsFromString reg cats s, reg)

/-- State-passing form of `GetParsers`. -/
def GetParsersSt (cats : Categories) (pfs : Option String) (reg : Registry) :
    List (String × ParserClass) × Registry :=
  (GetParsers reg cats pfs, reg)

/-- State-passing form of `GetParserNames`. -/
def GetParserNamesSt (cats : Categories) (pfs : Option String)
    (reg : Registry) : List String × Registry :=
  (GetParserNames reg cats pfs, reg)

/-- State-passing form of `GetParserObjects`. -/
def GetParserObjectsSt (cats : Categories) (pfs : Option String)
    (reg : Registry) : List (String × ParserClass) × Registry :=
  (GetParserObjects reg cats pfs, reg)

/-- State-passing form of `GetSpecificationStore`. -/
def GetSpecificationStoreSt (cats : Categories) (pfs : Option String)
    (reg : Registry) : (List FormatSpecification × List String) × Registry :=
  (GetSpecificationStore reg cats pfs, reg)

/-- State-passing form of `GetWindowsRegistryPlugins`. -/
def GetWindowsRegistryPluginsSt (reg : Registry) :
    Option (List String) × Registry :=
  (GetWindowsRegistryPlugins reg, reg)

/-- A format specification with zero signatures, declared by a parser. -/
def trivialSpec : FormatSpecification := ⟨"trivial_format", []⟩

/-- A parser whose format specification is present but has no signatures. -/
def trivialParser : ParserClass :=
  ⟨"trivialparser", false, [], some trivialSpec, []⟩

/-- A registry holding only `trivialParser`. -/
def trivialRegistry : Registry := [("trivialparser", trivialParser)]

/-- A plugin-less parser named `foo`. -/
def pcFoo : ParserClass := ⟨"foo", false, [], none, []⟩

/-- A parser whose `NAME` lower-cases to `foo` as well. -/
def pcFooCopy : ParserClass := ⟨"Foo", false, [], none, []⟩

/-- A plugin-less parser named `bar`. -/
def pcBar : ParserClass := ⟨"bar", false, [], none, []⟩

/-- A registry holding only `pcFoo`. -/
def regFoo : Registry := [("foo", pcFoo)]

/-- A parser named `p` that supports plugins `a` and `b`. -/
def pcPlug : ParserClass := ⟨"p", true, ["a", "b"], none, []⟩

/-- A registry holding only `pcPlug`. -/
def regPlug : Registry := [("p", pcPlug)]

/-- A signature anchored 4 bytes from the end of the stream. -/
def sigNeg : Signature := ⟨"sneg", [77], some (-4)⟩

/-- A specification with end-anchored, start-anchored and unanchored signatures. -/
def specW : FormatSpecification :=
  ⟨"w", [sigNeg, ⟨"spos", [1], some 10⟩, ⟨"snone", [2], none⟩]⟩

/-- A store holding only `specW`. -/
def storeW : List FormatSpecification := [specW]

theorem foldl_append_singleton {α β : Type} (f : α → β) (l : List α)
    (acc : List β) :
    l.foldl (fun a x => a ++ [f x]) acc = acc ++ l.map f := by
  induction l generalizing acc with
  | nil => simp
  | cons hd tl ih => simp [ih]

theorem getScanner_foldl (store : List FormatSpecification)
    (acc : List ScannerRule) :
    store.foldl
      (fun a format_specification =>
        format_specification.signatures.foldl
          (fun a2 signature => a2 ++ [signatureRule signature]) a) acc =
    acc ++ (store.map (fun fsp => fsp.signatures.map signatureRule)).flatten := by
  induction store generalizing acc with
  | nil => simp
  | cons hd tl ih =>
    simp only [List.foldl_cons, List.map_cons, List.flatten_cons]
    rw [foldl_append_singleton, ih]
    simp [List.append_assoc]

theorem getScanner_eq (store : List FormatSpecification) :
    GetScanner store =
      (store.map (fun fsp => fsp.signatures.map signatureRule)).flatten := by
  unfold GetScanner
  simpa using getScanner_foldl store []

theorem specStore_foldl (l : List (String × ParserClass))
    (acc : List FormatSpecification × List String) :
    l.foldl specStoreStep acc =
      (acc.1 ++ l.filterMap (fun p => p.2.formatSpecification),
        acc.2 ++ (l.filter
          (fun p => p.2.formatSpecification.isNone)).map Prod.fst) := by
  induction l generalizing acc with
  | nil => simp
  | cons hd tl ih =>
    cases h : hd.2.formatSpecification with
    | none => simp [specStoreStep, h, ih]
    | some fsp => simp [specStoreStep, h, ih]

theorem specStore_partition_length (l : List (String × ParserClass)) :
    (l.filterMap (fun p => p.2.formatSpecification)).length +
      (l.filter (fun p => p.2.formatSpecification.isNone)).length =
    l.length := by
  induction l with
  | nil => rfl
  | cons hd tl ih =>
    cases h : hd.2.formatSpecification <;> simp [h] <;> omega

/-- C2: every signature processed by `GetScanner` is emitted as a rule; a null
offset gives flag `NO_OFFSET` with the offset passed through unchanged, a
negative offset gives flag `RELATIVE_FROM_END` with the absolute value of the
offset, and a non-negative offset gives flag `RELATIVE_FROM_START` with the
offset as given. -/
theorem getScanner_offset_polarity (store : List FormatSpecification)
    (sig : Signature) (fsp : FormatSpecification)
    (hfs : fsp ∈ store) (hs : sig ∈ fsp.signatures) :
    signatureRule sig ∈ GetScanner store ∧
    (sig.offset = none →
      signatureRule sig =
        ⟨sig.identifier, sig.offset, sig.pattern, SignatureFlag.NO_OFFSET⟩) ∧
    (∀ o : Int, sig.offset = some o → o < 0 →
      signatureRule sig =
        ⟨sig.identifier, some |o|, sig.pattern,
          SignatureFlag.RELATIVE_FROM_END⟩) ∧
    (∀ o : Int, sig.offset = some o → 0 ≤ o →
      signatureRule sig =
        ⟨sig.identifier, some o, sig.pattern,
          SignatureFlag.RELATIVE_FROM_START⟩) := by
  refine ⟨?_, ?_, ?_, ?_⟩
  · rw [getScanner_eq]
    rw [List.mem_flatten]
    exact ⟨fsp.signatures.map signatureRule,
      List.mem_map_of_mem _ hfs, List.mem_map_of_mem _ hs⟩
  · intro h
    simp [signatureRule, h]
  · intro o h hneg
    have habs : |o| = o * -1 := by
      rw [abs_of_neg hneg]; ring
    simp [signatureRule, h, if_pos hneg, habs]
  · intro o h hnonneg
    simp [signatureRule, h, if_neg (not_lt.mpr hnonneg)]

/-- Witness for C2 at the end-anchored signature `sigNeg` of `storeW`. -/
theorem getScanner_offset_polarity_witness :
    signatureRule sigNeg ∈ GetScanner storeW ∧
    signatureRule sigNeg =
      ⟨"sneg", some 4, [77], SignatureFlag.RELATIVE_FROM_END⟩ := by
  have h := getScanner_offset_polarity storeW sigNeg specW
    (by decide) (by decide)
  refine ⟨h.1, ?_⟩
  have h2 := h.2.2.1 (-4) rfl (by decide)
  rw [h2]
  decide

/-- C8: with an absent or empty filter string, `GetParsers` yields exactly the
registered (name, class) pairs (here as list equality with the registry, which
implies the order-insensitive set equality and the count of the claim). -/
theorem getParsers_empty_filter (reg : Registry) (cats : Categories) :
    GetParsers reg cats none = reg ∧ GetParsers reg cats (some "") = reg := by
  constructor <;> simp [GetParsers, listTruthy]

/-- C6: `RegisterParser` raises `KeyError` exactly when the lower-cased name is
already a registry key and otherwise inserts the class under that key;
`DeregisterParser` raises `KeyError` exactly when the lower-cased name is
absent and otherwise removes the entry; each error case leaves the registry
unchanged. -/
theorem register_deregister_spec (reg : Registry) (parser_class : ParserClass) :
    (regContains reg (pyLower parser_class.NAME) = true →
      RegisterParser parser_class reg =
        (Except.error ("Parser class already set for name: " ++
          parser_class.NAME ++ "."), reg)) ∧
    (regContains reg (pyLower parser_class.NAME) = false →
      RegisterParser parser_class reg =
        (Except.ok (), reg ++ [(pyLower parser_class.NAME, parser_class)])) ∧
    (regContains reg (pyLower parser_class.NAME) = false →
      DeregisterParser parser_class reg =
        (Except.error ("Parser class not set for name: " ++
          parser_class.NAME ++ "."), reg)) ∧
    (regContains reg (pyLower parser_class.NAME) = true →
      DeregisterParser parser_class reg =
        (Except.ok (),
          List.filter (fun p => !(p.1 == pyLower parser_class.NAME)) reg)) := by
  refine ⟨fun h => ?_, fun h => ?_, fun h => ?_, fun h => ?_⟩ <;>
    simp [RegisterParser, DeregisterParser, h]

/-- Witness for C6 on concrete registries: duplicate registration of `Foo`
over `foo` fails and leaves the registry unchanged, fresh registration
inserts, deregistration of an absent name fails and leaves the registry
unchanged, and deregistration of a present name removes it. -/
theorem register_deregister_spec_witness :
    RegisterParser pcFooCopy regFoo =
      (Except.error ("Parser class already set for name: " ++
        pcFooCopy.NAME ++ "."), regFoo) ∧
    RegisterParser pcBar regFoo =
      (Except.ok (), regFoo ++ [(pyLower pcBar.NAME, pcBar)]) ∧
    DeregisterParser pcBar regFoo =
      (Except.error ("Parser class not set for name: " ++
        pcBar.NAME ++ "."), regFoo) ∧
    DeregisterParser pcFoo regFoo =
      (Except.ok (),
        List.filter (fun p => !(p.1 == pyLower pcFoo.NAME)) regFoo) :=
  ⟨(register_deregister_spec regFoo pcFooCopy).1 (by decide),
    (register_deregister_spec regFoo pcBar).2.1 (by decide),
    (register_deregister_spec regFoo pcBar).2.2.1 (by decide),
    (register_deregister_spec regFoo pcFoo).2.2.2 (by decide)⟩

theorem registerParsers_append (l1 l2 : List ParserClass) (reg : Registry) :
    RegisterParsers (l1 ++ l2) reg =
      match RegisterParsers l1 reg with
      | (Except.ok _, reg1) => RegisterParsers l2 reg1
      | (Except.error e, reg1) => (Except.error e, reg1) := by
  induction l1 generalizing reg with
  | nil => rfl
  | cons hd tl ih =>
    rcases hr : RegisterParser hd reg with ⟨r, reg1⟩
    cases r with
    | ok u =>
      simp only [List.cons_append, RegisterParsers, hr]
      exact ih reg1
    | error e =>
      simp only [List.cons_append, RegisterParsers, hr]

/-- C7: `RegisterParsers` registers the classes in list order and fails fast on
the first class whose lower-cased name is already registered: the error is
raised there, the registry keeps exactly the registrations made from the
prefix before the failing class (no rollback), and the classes after the
failing one are not registered. -/
theorem registerParsers_fail_fast (l1 l2 : List ParserClass)
    (bad : ParserClass) (reg reg1 : Registry)
    (h1 : RegisterParsers l1 reg = (Except.ok (), reg1))
    (h2 : regContains reg1 (pyLower bad.NAME) = true) :
    RegisterParsers (l1 ++ bad :: l2) reg =
      (Except.error ("Parser class already set for name: " ++
        bad.NAME ++ "."), reg1) := by
  rw [registerParsers_append, h1]
  show RegisterParsers (bad :: l2) reg1 = _
  simp [RegisterParsers, RegisterParser, h2]

/-- Witness for C7: registering `[foo, Foo, bar]` into the empty registry
fails on `Foo` (duplicate of `foo`), keeps `foo` registered, and never
registers `bar`. -/
theorem registerParsers_fail_fast_witness :
    RegisterParsers [pcFoo, pcFooCopy, pcBar] [] =
      (Except.error ("Parser class already set for name: " ++
        pcFooCopy.NAME ++ "."), [("foo", pcFoo)]) :=
  registerParsers_fail_fast [pcFoo] [pcBar] pcFooCopy []
    [("foo", pcFoo)] (by rfl) (by decide)

/-- C10: the read operations leave the registry unchanged; in this embedding
the registry-mutating operations are exactly `RegisterParser`,
`RegisterParsers` and `DeregisterParser`, whose result registry differs from
their input in the success cases. -/
theorem reads_preserve_registry (reg : Registry) (cats : Categories)
    (s : String) (pfs : Option String) :
    (GetFilterListsFromStringSt cats s reg).2 = reg ∧
    (GetParsersSt cats pfs reg).2 = reg ∧
    (GetParserNamesSt cats pfs reg).2 = reg ∧
    (GetParserObjectsSt cats pfs reg).2 = reg ∧
    (GetSpecificationStoreSt cats pfs reg).2 = reg ∧
    (GetWindowsRegistryPluginsSt reg).2 = reg :=
  ⟨rfl, rfl, rfl, rfl, rfl, rfl⟩

/-- C1 counterexample: `trivialParser` declares a format specification with
zero signatures, and `GetSpecificationStore` adds it to the store anyway —
the source only checks `format_specification is not None`
(manager.py:198), never the signature count. -/
theorem zero_signature_spec_added :
    (GetSpecificationStore trivialRegistry [] none).1 = [trivialSpec] ∧
    trivialSpec.signatures.length = 0 :=
  ⟨rfl, rfl⟩

/-- C1 amended: for every selected parser whose format specification is
present, `GetSpecificationStore` adds that specification to the store,
regardless of whether it contains any signatures — the store is exactly the
list of present specifications of the selected parsers. -/
theorem specification_store_contents (reg : Registry) (cats : Categories)
    (pfs : Option String) :
    (GetSpecificationStore reg cats pfs).1 =
      (GetParsers reg cats pfs).filterMap
        (fun p => p.2.formatSpecification) := by
  unfold GetSpecificationStore
  rw [specStore_foldl]
  simp

/-- C3: every parser yielded by `GetParsers` during `GetSpecificationStore`
ends up in exactly one of the store and the remainder list: the remainder is
exactly the names of the yielded parsers without a specification, the store
is exactly the present specifications of the others, and the two sides count
up to the number of yielded parsers. -/
theorem store_remainder_partition (reg : Registry) (cats : Categories)
    (pfs : Option String) :
    (GetSpecificationStore reg cats pfs).2 =
      ((GetParsers reg cats pfs).filter
        (fun p => p.2.formatSpecification.isNone)).map Prod.fst ∧
    (GetSpecificationStore reg cats pfs).1 =
      (GetParsers reg cats pfs).filterMap
        (fun p => p.2.formatSpecification) ∧
    (GetSpecificationStore reg cats pfs).1.length +
      (GetSpecificationStore reg cats pfs).2.length =
    (GetParsers reg cats pfs).length := by
  unfold GetSpecificationStore
  rw [specStore_foldl]
  refine ⟨by simp, by simp, ?_⟩
  simp only [List.nil_append, List.length_map]
  exact specStore_partition_length (GetParsers reg cats pfs)

/-- C4: a token that survives the empty-token drop is resolved with
first-match-wins order: a registered parser name is appended (followed by its
plugin names when it supports plugins), else a preset category is expanded to
its parser names, else the token itself is appended verbatim — always to the
active (include or exclude) list, and never raising an error. -/
theorem token_resolution (reg : Registry) (cats : Categories)
    (inc exc : List String) (raw : String) (hne : pyStrip raw ≠ "") :
    filterListStep reg cats (inc, exc) raw =
      (let isExclude := pyStartsWithDash (pyStrip raw)
       let tok := pyLower (if isExclude then pyDropHead (pyStrip raw)
         else pyStrip raw)
       let additions :=
         match regLookup reg tok with
         | some parser_class =>
             if parser_class.supportsPlugins then
               tok :: parser_class.pluginNames
             else [tok]
         | none =>
             if catContains cats tok then GetParsersFromCategory cats tok
             else [tok]
       if isExclude then (inc, exc ++ additions)
       else (inc ++ additions, exc)) := by
  simp only [filterListStep, if_neg hne]

/-- Witness for C4: the include token `p` names a plugin-bearing parser with
plugins `a` and `b`, so resolution appends `p`, `a`, `b` to the includes. -/
theorem token_resolution_witness :
    filterListStep regPlug [] ([], []) "p" = (["p", "a", "b"], []) := by
  rw [token_resolution regPlug [] [] [] "p" (by decide)]
  decide

theorem regLookup_isSome (reg : Registry) (n : String) :
    (regLookup reg n).isSome = regContains reg n := by
  rw [Bool.eq_iff_iff]
  simp [regLookup, regContains]

/-- C5: a name resolved into both the includes and the excludes of a filter
string is never yielded by `GetParsers`: the exclude check runs before the
include check (manager.py:137-141). -/
theorem exclusion_precedence (reg : Registry) (cats : Categories) (s : String)
    (name : String) (parser_class : ParserClass)
    (hinc : name ∈ (GetFilterListsFromString reg cats s).1)
    (hexc : name ∈ (GetFilterListsFromString reg cats s).2) :
    (name, parser_class) ∉ GetParsers reg cats (some s) := by
  intro hmem
  by_cases hs : s = ""
  · subst hs
    have h0 : GetFilterListsFromString reg cats "" = ([], []) := rfl
    rw [h0] at hexc
    simp at hexc
  · have hcont :
        ((GetFilterListsFromString reg cats s).2).contains name = true := by
      simpa [List.contains] using hexc
    have htru :
        listTruthy (some (GetFilterListsFromString reg cats s).2) = true := by
      rcases h : (GetFilterListsFromString reg cats s).2 with _ | ⟨a, l⟩
      · rw [h] at hexc
        simp at hexc
      · rfl
    simp only [GetParsers, if_neg hs, List.mem_filter] at hmem
    obtain ⟨-, hpred⟩ := hmem
    simp [htru, hcont] at hpred
    exact hpred.1 hexc

/-- Witness for C5: with filter string `foo,-foo`, the parser `foo` is in both
resolved lists and is not yielded. -/
theorem exclusion_precedence_witness :
    ("foo", pcFoo) ∉ GetParsers regFoo [] (some "foo,-foo") :=
  exclusion_precedence regFoo [] "foo,-foo" "foo" pcFoo
    (by decide) (by decide)

theorem mem_excludes_filterListStep (reg : Registry) (cats : Categories)
    (acc : List String × List String) (t x : String) (hx : x ∈ acc.2) :
    x ∈ (filterListStep reg cats acc t).2 := by
  by_cases h0 : pyStrip t = ""
  · simpa [filterListStep, h0] using hx
  · simp only [filterListStep, if_neg h0]
    by_cases hex : pyStartsWithDash (pyStrip t) = true
    · simp [hex]
      exact Or.inl hx
    · have hex2 : pyStartsWithDash (pyStrip t) = false := by
        simpa using hex
      simpa [hex2] using hx

theorem mem_excludes_foldl (reg : Registry) (cats : Categories)
    (toks : List String) (acc : List String × List String) (x : String)
    (hx : x ∈ acc.2) :
    x ∈ (toks.foldl (filterListStep reg cats) acc).2 := by
  induction toks generalizing acc with
  | nil => exact hx
  | cons t ts ih =>
    rw [List.foldl_cons]
    exact ih _ (mem_excludes_filterListStep reg cats acc t x hx)

theorem filterListStep_dash (reg : Registry) (cats : Categories)
    (acc : List String × List String) (t : String)
    (hst : pyStrip t = "-")
    (henv : regContains reg "" = true ∨ catContains cats "" = false) :
    "" ∈ (filterListStep reg cats acc t).2 := by
  have e0 : ¬ ("-" : String) = "" := by decide
  have e1 : pyStartsWithDash "-" = true := rfl
  have e2 : pyLower (pyDropHead "-") = "" := rfl
  rcases hrl : regLookup reg "" with _ | pc
  · have hcat : catContains cats "" = false := by
      rcases henv with h | h
      · exfalso
        have hiso := regLookup_isSome reg ""
        rw [hrl, h] at hiso
        simp at hiso
      · exact h
    simp [filterListStep, hst, e0, e1, e2, hrl, hcat]
  · cases hsp : pc.supportsPlugins <;>
      simp [filterListStep, hst, e0, e1, e2, hrl, hsp]

/-- C9: a filter token that strips to exactly `-` is not dropped — the
empty-token check happens before the negation marker is stripped — and its
processing appends the empty string to the excludes list (assuming the empty
string is a registered parser name or, as in the real preset catalog, not a
category name). -/
theorem dash_token_adds_empty_exclude (reg : Registry) (cats : Categories)
    (s : String)
    (htok : ∃ t ∈ pySplitComma s, pyStrip t = "-")
    (henv : regContains reg "" = true ∨ catContains cats "" = false) :
    "" ∈ (GetFilterListsFromString reg cats s).2 := by
  obtain ⟨t, ht, hst⟩ := htok
  obtain ⟨L1, L2, hdec⟩ := List.append_of_mem ht
  unfold GetFilterListsFromString
  rw [hdec, List.foldl_append, List.foldl_cons]
  exact mem_excludes_foldl reg cats L2 _ ""
    (filterListStep_dash reg cats _ t hst henv)

/-- Witness for C9: the filter string `" - "` (one token of whitespace around
a lone `-`) puts the empty string on the excludes list. -/
theorem dash_token_adds_empty_exclude_witness :
    "" ∈ (GetFilterListsFromString [] [] " - ").2 :=
  dash_token_adds_empty_exclude [] [] " - "
    ⟨" - ", by decide, by decide⟩ (Or.inr rfl)
